import Mathlib

/-!
Shallow embedding of the trait-implementation registry and polymorphic
query-fetch engine of `bevy-trait-query` (src/src/lib.rs).

Modelling conventions:
* `ComponentId` and `EntityId` are `Nat` (opaque identifiers in the source).
* Raw pointers are modelled as `Nat` addresses; pointer arithmetic
  (`Ptr::byte_add`) becomes `Nat` addition.
* A `DynCtor` is a function `Nat → Nat`: it turns a raw address into an
  (abstract) trait-object value, exactly as opaque as the source's
  `unsafe fn(*mut u8) -> *mut Trait`.
* Panics (`panic!`, `assert!`, `debug_unreachable`) are modelled as
  `Except.error`; normal completion is `Except.ok`.
* The host storage (bevy's `Table`, `SparseSets`, `Access`) is an external
  collaborator that is not part of src/; it is modelled from the spec's
  interface description (section 6) as total lookup functions.
-/

abbrev ComponentId := Nat

abbrev EntityId := Nat

/-- Storage discipline of a concrete component type
(`bevy::ecs::component::StorageType`). -/
inductive StorageType where
  | Table
  | SparseSet
deriving DecidableEq

/-- `DynCtor` (src/src/lib.rs:356): turns an untyped pointer into a trait
object pointer, for a specific erased concrete type. The cast itself is
modelled as an abstract function on addresses. -/
structure DynCtor where
  cast : Nat → Nat

/-- `TraitImplMeta` (src/src/lib.rs:251): data about one impl of a trait. -/
structure TraitImplMeta where
  size_bytes : Nat
  dyn_ctor : DynCtor

/-- `TraitImplRegistry` (src/src/lib.rs:188): per-capability registry of the
concrete component types implementing the trait, partitioned by storage
discipline. -/
structure TraitImplRegistry where
  components : List ComponentId
  meta : List TraitImplMeta
  table_components : List ComponentId
  table_meta : List TraitImplMeta
  sparse_components : List ComponentId
  sparse_meta : List TraitImplMeta
  sealed : Bool

/-- `impl Default for TraitImplRegistry` (src/src/lib.rs:202). -/
def TraitImplRegistry.default : TraitImplRegistry :=
  { components := []
    meta := []
    table_components := []
    table_meta := []
    sparse_components := []
    sparse_meta := []
    sealed := false }

/-- `TraitImplRegistry::register` (src/src/lib.rs:218). In the source the
storage discipline comes from the type parameter `C`; since the world assigns
each concrete type a unique `ComponentId`, we model it as a function
`storageOf` from component identifiers to storage types. A panic is modelled
as `Except.error`; `Vec::push` appends at the end. -/
def TraitImplRegistry.register (storageOf : ComponentId → StorageType)
    (r : TraitImplRegistry) (component : ComponentId) (meta : TraitImplMeta) :
    Except String TraitImplRegistry :=
  -- Don't register the same component multiple times.
  if r.components.contains component then
    Except.ok r
  else if r.sealed then
    Except.error "Cannot register new trait impls after the game has started"
  else
    match storageOf component with
    | StorageType.Table =>
      Except.ok { r with
        components := r.components ++ [component]
        meta := r.meta ++ [meta]
        table_components := r.table_components ++ [component]
        table_meta := r.table_meta ++ [meta] }
    | StorageType.SparseSet =>
      Except.ok { r with
        components := r.components ++ [component]
        meta := r.meta ++ [meta]
        sparse_components := r.sparse_components ++ [component]
        sparse_meta := r.sparse_meta ++ [meta] }

/-- `TraitImplRegistry::seal` (src/src/lib.rs:245). -/
def TraitImplRegistry.seal (r : TraitImplRegistry) : TraitImplRegistry :=
  { r with sealed := true }

/-- `OneQueryState` (src/src/lib.rs:320): boxed snapshot of the registry's
`components` and `meta` sequences. -/
structure OneQueryState where
  components : List ComponentId
  meta : List TraitImplMeta

/-- `AllQueryState` (src/src/lib.rs:1043): snapshot of the `components`
identifiers only. -/
structure AllQueryState where
  components : List ComponentId

/-- The panic message of the `#[cold] fn error` helper used by both
`OneQueryState::init` (src/src/lib.rs:327) and `AllQueryState::init`
(src/src/lib.rs:1050), with the trait's type name interpolated. -/
def no_components_error (traitName : String) : String :=
  "no components found matching `" ++ traitName ++
    "`, did you forget to register them?"

/-- `OneQueryState::init` (src/src/lib.rs:326). The world's resource slot for
`TraitImplRegistry<Trait>` is modelled as an `Option TraitImplRegistry`
(`none` when no concrete type was ever registered). On success the registry
is sealed and its sequences are snapshotted. -/
def OneQueryState.init (traitName : String)
    (world : Option TraitImplRegistry) :
    Except String (OneQueryState × TraitImplRegistry) :=
  match world with
  | none => Except.error (no_components_error traitName)
  | some registry =>
    Except.ok ({ components := registry.components, meta := registry.meta },
      registry.seal)

/-- `OneQueryState::matches_component_set` (src/src/lib.rs:344): the batch
matches iff the number of registered components contained in the set is
exactly one. -/
def OneQueryState.matches_component_set (s : OneQueryState)
    (set_contains_id : ComponentId → Bool) : Bool :=
  (s.components.filter set_contains_id).length == 1

/-- `AllQueryState::init` (src/src/lib.rs:1049): identical to the "one"
variant except that only the `components` sequence is snapshotted. -/
def AllQueryState.init (traitName : String)
    (world : Option TraitImplRegistry) :
    Except String (AllQueryState × TraitImplRegistry) :=
  match world with
  | none => Except.error (no_components_error traitName)
  | some registry =>
    Except.ok ({ components := registry.components }, registry.seal)

/-- `AllQueryState::matches_component_set` (src/src/lib.rs:1067): the batch
matches iff at least one registered component is contained in the set. -/
def AllQueryState.matches_component_set (s : AllQueryState)
    (set_contains_id : ComponentId → Bool) : Bool :=
  s.components.any set_contains_id

/-- Modelled from the spec: one column of the host's columnar table storage
(bevy's `Column`, external collaborator, section 6 of the spec):
`get_data_ptr` is the column's base address, `ticks` the per-row
change-tick cells. -/
structure ColumnModel where
  data_ptr : Nat
  ticks : Nat → Nat

/-- Modelled from the spec: the host's `Table` for one storage batch
(section 6: `get_table_column(table_handle, component_id) -> optional ...`),
plus the table's row-to-entity mapping (`entities(batch)`). -/
structure TableModel where
  get_column : ComponentId → Option ColumnModel
  entities : Nat → EntityId

/-- Modelled from the spec: one `ComponentSparseSet` of the host
(section 6: `handle.get(entity_id) -> optional(raw_pointer)`). -/
structure SparseSetModel where
  get : EntityId → Option Nat

/-- Modelled from the spec: the host's `SparseSets` collection
(section 6: `get_sparse_column(component_id) -> optional(handle)`). -/
abbrev SparseSets := ComponentId → Option SparseSetModel

/-- `ReadStorage` (src/src/lib.rs:442): what `ReadTraitFetch` remembers after
per-batch setup. Slices (`entity_rows`, `entities`) are modelled as total
index functions supplied by the host. -/
inductive ReadStorage where
  | Uninit
  | Table (column : Nat) (entity_rows : Nat → Nat) (meta : TraitImplMeta)
  | SparseSet (components : SparseSetModel) (entities : Nat → EntityId)
      (meta : TraitImplMeta)

/-- `WriteStorage` (src/src/lib.rs:618): the write-variant analogue. -/
inductive WriteStorage where
  | Uninit
  | Table (column : Nat) (table_ticks : Nat → Nat) (entity_rows : Nat → Nat)
      (meta : TraitImplMeta)
  | SparseSet (components : SparseSetModel) (entities : Nat → EntityId)
      (meta : TraitImplMeta)

/-- The first `for` loop of `ReadTraitFetch::set_archetype`
(src/src/lib.rs:493) and of both `set_table` variants: scan the zipped
`components`/`meta` sequence for the first component that has a column in
the table, returning that column and its metadata. -/
def findTableHit (table : TableModel) :
    List (ComponentId × TraitImplMeta) → Option (ColumnModel × TraitImplMeta)
  | [] => none
  | (c, m) :: rest =>
    match table.get_column c with
    | some column => some (column, m)
    | none => findTableHit table rest

/-- The second `for` loop of `ReadTraitFetch::set_archetype`
(src/src/lib.rs:503): scan for the first component that has a sparse set in
the world's sparse storage. -/
def findSparseHit (sparse_sets : SparseSets) :
    List (ComponentId × TraitImplMeta) →
    Option (SparseSetModel × TraitImplMeta)
  | [] => none
  | (c, m) :: rest =>
    match sparse_sets c with
    | some s => some (s, m)
    | none => findSparseHit sparse_sets rest

/-- `ReadTraitFetch::set_archetype` (src/src/lib.rs:484): check the table
components first (they are cheaper to retrieve), then the sparse sets; on a
hit remember the storage location and metadata and return; if the scan
completes with no hit, `debug_unreachable` (modelled as an error). The source
iterates with `zip_exact`, which debug-asserts that `components` and `meta`
have equal length and then behaves as `zip`. -/
def ReadTraitFetch.set_archetype (state : OneQueryState)
    (sparse_sets : SparseSets) (table : TableModel)
    (entity_table_rows : Nat → Nat) (entities : Nat → EntityId) :
    Except String ReadStorage :=
  match findTableHit table (state.components.zip state.meta) with
  | some (column, meta) =>
    Except.ok (ReadStorage.Table column.data_ptr entity_table_rows meta)
  | none =>
    match findSparseHit sparse_sets (state.components.zip state.meta) with
    | some (s, meta) => Except.ok (ReadStorage.SparseSet s entities meta)
    | none => Except.error "internal error: entered unreachable code"

/-- `ReadTraitFetch::archetype_fetch` (src/src/lib.rs:517): per-entity fetch
through the remembered storage. For a table hit, the raw pointer is the
column base plus `table_row * size_bytes`; the Dyn-Constructor then yields
the trait object. -/
def ReadTraitFetch.archetype_fetch (storage : ReadStorage)
    (archetype_index : Nat) : Except String Nat :=
  match storage with
  | ReadStorage.Uninit => Except.error "internal error: entered unreachable code"
  | ReadStorage.Table column entity_rows meta =>
    let table_row := entity_rows archetype_index
    Except.ok (meta.dyn_ctor.cast (column + table_row * meta.size_bytes))
  | ReadStorage.SparseSet components entities meta =>
    let entity := entities archetype_index
    match components.get entity with
    | some ptr => Except.ok (meta.dyn_ctor.cast ptr)
    | none => Except.error "internal error: entered unreachable code"

/-- The `for` loop of `ReadTraitFetch::set_table` (src/src/lib.rs:547).
Each hit ASSIGNS `self.storage` but — unlike every sibling function — the
loop body contains no `return`, so scanning continues and a later hit
overwrites an earlier one. The `entity_rows` field is set to an empty slice
(modelled as the constant-zero function; `table_fetch` ignores it). -/
def ReadTraitFetch.set_table_loop (table : TableModel) (storage : ReadStorage) :
    List (ComponentId × TraitImplMeta) → ReadStorage
  | [] => storage
  | (c, m) :: rest =>
    match table.get_column c with
    | some column =>
      ReadTraitFetch.set_table_loop table
        (ReadStorage.Table column.data_ptr (fun _ => 0) m) rest
    | none => ReadTraitFetch.set_table_loop table storage rest

/-- `ReadTraitFetch::set_table` (src/src/lib.rs:545). After the loop —
whether or not any column was found — control falls through to
`debug_unreachable()` (src/src/lib.rs:557), which panics in debug builds and
is undefined behavior in release builds. We model that unconditional abort
as `Except.error`; the storage assigned inside the loop is discarded exactly
as the aborted call discards it. -/
def ReadTraitFetch.set_table (state : OneQueryState) (table : TableModel) :
    Except String ReadStorage :=
  let _storage := ReadTraitFetch.set_table_loop table ReadStorage.Uninit
    (state.components.zip state.meta)
  Except.error "internal error: entered unreachable code"

/-- `ReadTraitFetch::table_fetch` (src/src/lib.rs:560). -/
def ReadTraitFetch.table_fetch (storage : ReadStorage) (table_row : Nat) :
    Except String Nat :=
  match storage with
  | ReadStorage.Table column _ meta =>
    Except.ok (meta.dyn_ctor.cast (column + table_row * meta.size_bytes))
  | _ => Except.error "internal error: entered unreachable code"

/-- `WriteTraitFetch::set_table` (src/src/lib.rs:768): same scan as the read
variant, but the loop body DOES `return` on the first hit; only a scan that
completes with no hit reaches `debug_unreachable`. -/
def WriteTraitFetch.set_table (state : OneQueryState) (table : TableModel) :
    Except String WriteStorage :=
  match findTableHit table (state.components.zip state.meta) with
  | some (column, meta) =>
    Except.ok (WriteStorage.Table column.data_ptr column.ticks (fun _ => 0) meta)
  | none => Except.error "internal error: entered unreachable code"

/-- Modelled from the spec: the host's access-tracking object
(bevy's `Access<ComponentId>`, external collaborator, section 6:
`declare_read(component_id)` / `declare_write(component_id)`). A declared
write also counts as a read for conflict purposes, so the object keeps the
set of read-or-written components alongside the set of written components. -/
structure Access where
  reads_and_writes : List ComponentId
  writes : List ComponentId

/-- Host `Access::has_write`: has an exclusive access been declared? -/
def Access.has_write (a : Access) (c : ComponentId) : Bool :=
  a.writes.contains c

/-- Host `Access::has_read`: has any access (shared or exclusive) been
declared? -/
def Access.has_read (a : Access) (c : ComponentId) : Bool :=
  a.reads_and_writes.contains c

/-- Host `Access::add_read`. -/
def Access.add_read (a : Access) (c : ComponentId) : Access :=
  { a with reads_and_writes := a.reads_and_writes ++ [c] }

/-- Host `Access::add_write`: records the component as both written and
read-or-written. -/
def Access.add_write (a : Access) (c : ComponentId) : Access :=
  { reads_and_writes := a.reads_and_writes ++ [c]
    writes := a.writes ++ [c] }

/-- `WriteTraitFetch::update_component_access` (src/src/lib.rs:812), shared
verbatim with `WriteAllTraitsFetch::update_component_access`
(src/src/lib.rs:1286): for every registered component, assert
`!access.access().has_write(component)` — note: only `has_write` — then
`add_write` it. The failed assertion's panic is modelled as `Except.error`
with the assertion's message. -/
def WriteTraitFetch.update_component_access (components : List ComponentId)
    (access : Access) : Except String Access :=
  match components with
  | [] => Except.ok access
  | c :: rest =>
    if access.has_write c then
      Except.error "&mut Trait conflicts with a previous access in this query. Mutable component access must be unique."
    else
      WriteTraitFetch.update_component_access rest (access.add_write c)

/-- `ReadTraitFetch::update_component_access` (src/src/lib.rs:576), shared
verbatim with `ReadAllTraitsFetch::update_component_access`
(src/src/lib.rs:1189): assert `!has_write`, then `add_read`. -/
def ReadTraitFetch.update_component_access (components : List ComponentId)
    (access : Access) : Except String Access :=
  match components with
  | [] => Except.ok access
  | c :: rest =>
    if access.has_write c then
      Except.error "&Trait conflicts with a previous access in this query. Shared access cannot coincide with exclusive access."
    else
      ReadTraitFetch.update_component_access rest (access.add_read c)

/-- `ReadTraits` (src/src/lib.rs:845): read access to all components
implementing a trait for a given entity: the registry, the entity's table
and row, and the world's sparse sets. -/
structure ReadTraits where
  registry : TraitImplRegistry
  table : TableModel
  table_row : Nat
  sparse_sets : SparseSets

/-- `WriteTraits` (src/src/lib.rs:862): the write-access analogue, carrying
the change-tick bounds as well. -/
structure WriteTraits where
  registry : TraitImplRegistry
  table : TableModel
  table_row : Nat
  last_change_tick : Nat
  change_tick : Nat
  sparse_sets : SparseSets

/-- Exhaustive unfolding of `ReadTableTraitsIter::next` (src/src/lib.rs:900):
walk the remaining zipped table components and metadata; each component whose
column exists in the table yields one trait object, built from the column
base plus `table_row * size_bytes`. The source drives the two parallel slice
iterators with `zip_exact`; the callers construct them from the registry's
equal-length `table_components`/`table_meta`. -/
def read_table_traits_list (table : TableModel) (table_row : Nat) :
    List ComponentId → List TraitImplMeta → List Nat
  | c :: cs, m :: ms =>
    (match table.get_column c with
    | some column =>
      m.dyn_ctor.cast (column.data_ptr + table_row * m.size_bytes) ::
        read_table_traits_list table table_row cs ms
    | none => read_table_traits_list table table_row cs ms)
  | _, _ => []

/-- Exhaustive unfolding of `ReadSparseTraitsIter::next`
(src/src/lib.rs:928): each registered sparse component whose sparse set
contains the entity yields one trait object built from the stored pointer. -/
def read_sparse_traits_list (sparse_sets : SparseSets) (entity : EntityId) :
    List ComponentId → List TraitImplMeta → List Nat
  | c :: cs, m :: ms =>
    (match (sparse_sets c).bind (fun s => s.get entity) with
    | some ptr =>
      m.dyn_ctor.cast ptr :: read_sparse_traits_list sparse_sets entity cs ms
    | none => read_sparse_traits_list sparse_sets entity cs ms)
  | _, _ => []

/-- `impl IntoIterator for ReadTraits` (src/src/lib.rs:1313): chain the
table-component iterator (over `registry.table_components`/`table_meta`)
with the sparse-component iterator (over
`registry.sparse_components`/`sparse_meta`), the sparse stage keyed by the
entity found at this row of the table. The chained iterator is represented
by the list of items it yields. -/
def ReadTraits.into_iter (rt : ReadTraits) : List Nat :=
  read_table_traits_list rt.table rt.table_row
    rt.registry.table_components rt.registry.table_meta
  ++ read_sparse_traits_list rt.sparse_sets (rt.table.entities rt.table_row)
    rt.registry.sparse_components rt.registry.sparse_meta

/-- `impl IntoIterator for &ReadTraits` (src/src/lib.rs:1333): the
by-reference impl re-derives the very same chained iterator from the
registry; nothing is cached from a previous traversal. -/
def ReadTraits.ref_into_iter (rt : ReadTraits) : List Nat :=
  read_table_traits_list rt.table rt.table_row
    rt.registry.table_components rt.registry.table_meta
  ++ read_sparse_traits_list rt.sparse_sets (rt.table.entities rt.table_row)
    rt.registry.sparse_components rt.registry.sparse_meta

/-- `impl IntoIterator for &WriteTraits` (src/src/lib.rs:1377): shared
re-iteration of a write collection yields read references, re-derived from
the registry exactly as for `&ReadTraits`. -/
def WriteTraits.ref_into_iter (wt : WriteTraits) : List Nat :=
  read_table_traits_list wt.table wt.table_row
    wt.registry.table_components wt.registry.table_meta
  ++ read_sparse_traits_list wt.sparse_sets (wt.table.entities wt.table_row)
    wt.registry.sparse_components wt.registry.sparse_meta

/-- Does `storageOf` assign the dense table discipline to `c`? -/
def storage_is_table (storageOf : ComponentId → StorageType)
    (c : ComponentId) : Bool :=
  match storageOf c with
  | StorageType.Table => true
  | StorageType.SparseSet => false

/-- Does `storageOf` assign the sparse discipline to `c`? -/
def storage_is_sparse (storageOf : ComponentId → StorageType)
    (c : ComponentId) : Bool :=
  match storageOf c with
  | StorageType.Table => false
  | StorageType.SparseSet => true

/-- Structural invariant of `TraitImplRegistry`: parallel sequences have
equal lengths, registered components are pairwise distinct, and the
discipline-specific sequences are exactly the registration-ordered
restriction of `components` to each storage discipline. -/
def RegistryWF (storageOf : ComponentId → StorageType)
    (r : TraitImplRegistry) : Prop :=
  r.components.length = r.meta.length ∧
  r.table_components.length = r.table_meta.length ∧
  r.sparse_components.length = r.sparse_meta.length ∧
  r.components.Nodup ∧
  r.table_components = r.components.filter (storage_is_table storageOf) ∧
  r.sparse_components = r.components.filter (storage_is_sparse storageOf)

/-- The registry states reachable from `default` through `register` calls
that complete normally and through `seal` calls. -/
inductive RegistryReachable (storageOf : ComponentId → StorageType) :
    TraitImplRegistry → Prop where
  | default : RegistryReachable storageOf TraitImplRegistry.default
  | register {r r' : TraitImplRegistry} {c : ComponentId} {m : TraitImplMeta}
      (hr : RegistryReachable storageOf r)
      (hok : r.register storageOf c m = Except.ok r') :
      RegistryReachable storageOf r'
  | seal_call {r : TraitImplRegistry} (hr : RegistryReachable storageOf r) :
      RegistryReachable storageOf (r.seal)

/-- Is the component's column present in the entity's table? -/
def table_present (t : TableModel) (c : ComponentId) : Bool :=
  (t.get_column c).isSome

/-- Does the sparse storage hold this component for this entity? -/
def sparse_present (ss : SparseSets) (e : EntityId) (c : ComponentId) : Bool :=
  ((ss c).bind (fun s => s.get e)).isSome

/-- Is the component present on the entity in either storage discipline? -/
def present_on (t : TableModel) (ss : SparseSets) (e : EntityId)
    (c : ComponentId) : Bool :=
  table_present t c || sparse_present ss e c

/-- The trait object an in-table hit yields, phrased over a zipped
`(component, meta)` pair: Dyn-Constructor applied to column base plus
`row * size`. -/
def table_item (t : TableModel) (row : Nat)
    (p : ComponentId × TraitImplMeta) : Nat :=
  p.2.dyn_ctor.cast (((t.get_column p.1).map ColumnModel.data_ptr).getD 0
    + row * p.2.size_bytes)

/-- The trait object a sparse hit yields: Dyn-Constructor applied to the
pointer stored for the entity. -/
def sparse_item (ss : SparseSets) (e : EntityId)
    (p : ComponentId × TraitImplMeta) : Nat :=
  p.2.dyn_ctor.cast (((ss p.1).bind (fun s => s.get e)).getD 0)

/-! ## Concrete fixtures used by counterexamples and witnesses -/

/-- A concrete metadata value: a 4-byte component whose Dyn-Constructor is
the identity on addresses. -/
def meta0 : TraitImplMeta :=
  { size_bytes := 4, dyn_ctor := { cast := fun p => p } }

/-- A world in which every concrete component type uses table storage. -/
def storage_all_table : ComponentId → StorageType :=
  fun _ => StorageType.Table

/-- A concrete table holding a column for component 0 at base address 100. -/
def table0 : TableModel :=
  { get_column := fun c =>
      if c == 0 then some { data_ptr := 100, ticks := fun _ => 0 } else none
    entities := fun _ => 0 }

/-- The registry reached by registering component 0 (table discipline) from
the default state. -/
def registry_one : TraitImplRegistry :=
  { components := [0], meta := [meta0]
    table_components := [0], table_meta := [meta0]
    sparse_components := [], sparse_meta := []
    sealed := false }

/-- `registry_one` after sealing: the state after the first query against
the capability has been built. -/
def sealed_registry_with_zero : TraitImplRegistry :=
  { components := [0], meta := [meta0]
    table_components := [0], table_meta := [meta0]
    sparse_components := [], sparse_meta := []
    sealed := true }

/-- A second concrete metadata value: an 8-byte component whose
Dyn-Constructor shifts the address by one. -/
def meta1 : TraitImplMeta :=
  { size_bytes := 8, dyn_ctor := { cast := fun p => p + 1 } }

/-- A world with no sparse sets at all. -/
def no_sparse_sets : SparseSets := fun _ => none

/-- A concrete `ReadTraits` value: the all-matches collection for the entity
at row 0 of `table0`, with the one-component registry. -/
def rt0 : ReadTraits :=
  { registry := registry_one
    table := table0
    table_row := 0
    sparse_sets := no_sparse_sets }

/-- A concrete `WriteTraits` value over the same batch. -/
def wt0 : WriteTraits :=
  { registry := registry_one
    table := table0
    table_row := 0
    last_change_tick := 3
    change_tick := 7
    sparse_sets := no_sparse_sets }

/-! ## Claims -/

/-- C1: the claim states that for a table containing a registered component,
`ReadTraitFetch::set_table` completes normally, remembers the first hit and
does not reach the fatal internal-consistency branch. The code violates
this: the loop lacks the `return` present in the write variant, so after
assigning the hit it keeps scanning and unconditionally falls through to
`debug_unreachable()`. At the failing input (query state registering
component 0, table with a column for component 0) the read variant aborts
while the write variant completes and remembers the hit. -/
theorem c1_read_set_table_always_aborts :
    (table0.get_column 0).isSome = true ∧
    ReadTraitFetch.set_table { components := [0], meta := [meta0] } table0 =
      Except.error "internal error: entered unreachable code" ∧
    WriteTraitFetch.set_table { components := [0], meta := [meta0] } table0 =
      Except.ok (WriteStorage.Table 100 (fun _ => 0) (fun _ => 0) meta0) :=
  ⟨rfl, rfl, rfl⟩

/-- C2: the claim states that declaring write access panics whenever a
registered component already has a read or a write access declared. The
code checks only `has_write`: at the failing input (component 0 with an
existing read access) `has_read` is true yet the write declaration
completes normally, adding exclusive access on top of the shared one —
contradicting the assertion's own message that mutable component access
must be unique. -/
theorem c2_write_access_misses_read_conflict :
    Access.has_read { reads_and_writes := [0], writes := [] } 0 = true ∧
    Access.has_write { reads_and_writes := [0], writes := [] } 0 = false ∧
    WriteTraitFetch.update_component_access [0]
        { reads_and_writes := [0], writes := [] } =
      Except.ok { reads_and_writes := [0, 0], writes := [0] } :=
  ⟨rfl, rfl, rfl⟩

/-- C3 counterexample: the claim states that any `register` call after
sealing panics with the registry unchanged. For a component identifier that
is already registered the duplicate check returns before the seal check, so
the call on a sealed registry completes normally (no panic). -/
theorem c3_counterexample_duplicate_after_seal :
    sealed_registry_with_zero.sealed = true ∧
    sealed_registry_with_zero.register storage_all_table 0 meta0 =
      Except.ok sealed_registry_with_zero :=
  ⟨rfl, rfl⟩

/-- C3 (amended): calling `register` on a sealed registry fails fatally for
every component identifier that is not already registered (and the registry
is left unchanged, since the abort precedes every mutation); a call with an
already-registered identifier returns silently with the registry unchanged,
even after sealing. -/
theorem c3_register_after_seal (storageOf : ComponentId → StorageType)
    (r : TraitImplRegistry) (c : ComponentId) (m : TraitImplMeta)
    (hs : r.sealed = true) :
    (c ∉ r.components →
      r.register storageOf c m =
        Except.error "Cannot register new trait impls after the game has started") ∧
    (c ∈ r.components → r.register storageOf c m = Except.ok r) := by
  constructor
  · intro hc
    simp [TraitImplRegistry.register, hc, hs]
  · intro hc
    simp [TraitImplRegistry.register, hc]

/-- Witness for C3 (amended): registering the fresh component 1 on the
concrete sealed registry fails fatally. -/
theorem c3_register_after_seal_witness :
    sealed_registry_with_zero.register storage_all_table 1 meta0 =
      Except.error "Cannot register new trait impls after the game has started" :=
  (c3_register_after_seal storage_all_table sealed_registry_with_zero 1 meta0
    rfl).1 (by decide)

/-- C7: registering the same component identifier twice leaves the registry
unchanged after the second call: whenever a first `register` call completes
normally with result registry `r1`, a second call for the same identifier
(with any metadata) returns `r1` itself — component count and all six
parallel sequences identical — with no error. -/
theorem c7_register_idempotent (storageOf : ComponentId → StorageType)
    (r r1 : TraitImplRegistry) (c : ComponentId) (m m' : TraitImplMeta)
    (h : r.register storageOf c m = Except.ok r1) :
    r1.register storageOf c m' = Except.ok r1 := by
  have hmem : c ∈ r1.components := by
    unfold TraitImplRegistry.register at h
    by_cases hc : c ∈ r.components
    · simp [hc] at h
      exact h ▸ hc
    · simp [hc] at h
      cases hseal : r.sealed with
      | true => simp [hseal] at h
      | false =>
        simp [hseal] at h
        cases hst : storageOf c with
        | Table =>
          simp [hst] at h
          subst h
          simp
        | SparseSet =>
          simp [hst] at h
          subst h
          simp
  simp [TraitImplRegistry.register, hmem]

/-- Witness for C7: registering component 0 on the default registry yields
`registry_one`; re-registering component 0 leaves `registry_one` unchanged. -/
theorem c7_register_idempotent_witness :
    registry_one.register storage_all_table 0 meta0 = Except.ok registry_one :=
  c7_register_idempotent storage_all_table TraitImplRegistry.default
    registry_one 0 meta0 meta0 rfl

/-- C8: building a query state (either variant) against a capability for
which no registry exists fails fatally at initialization with a message
naming the capability type. -/
theorem c8_unregistered_capability_fatal (traitName : String) :
    OneQueryState.init traitName none =
      Except.error (no_components_error traitName) ∧
    AllQueryState.init traitName none =
      Except.error (no_components_error traitName) ∧
    ∃ pre post : String,
      no_components_error traitName = pre ++ traitName ++ post :=
  ⟨rfl, rfl, "no components found matching `",
    "`, did you forget to register them?", rfl⟩

/-- A duplicate-free list that contains `c` and all of whose members equal
`c` is the singleton `[c]`. -/
theorem nodup_eq_singleton {α : Type} {l : List α} {c : α} (hn : l.Nodup)
    (hc : c ∈ l) (hall : ∀ x ∈ l, x = c) : l = [c] := by
  match l with
  | [] => cases hc
  | x :: rest =>
    have hx : x = c := hall x (List.mem_cons_self x rest)
    subst hx
    cases rest with
    | nil => rfl
    | cons y ys =>
      exfalso
      have hy : y = x := hall y (by simp)
      have hnotin : x ∉ y :: ys := (List.nodup_cons.mp hn).1
      exact hnotin (by simp [hy])

/-- C5: the "one"-variant matching predicate holds iff exactly one of the
registered component identifiers is contained in the set (so it is false
for zero matches and for two or more); the "all"-variant predicate holds
iff at least one registered identifier is contained. Stated for
duplicate-free component snapshots, which every reachable registry
provides. -/
theorem c5_matching_predicates (one : OneQueryState) (allq : AllQueryState)
    (set_contains_id : ComponentId → Bool)
    (hnd : one.components.Nodup) :
    (one.matches_component_set set_contains_id = true ↔
      ∃ c ∈ one.components, set_contains_id c = true ∧
        ∀ c' ∈ one.components, set_contains_id c' = true → c' = c) ∧
    (allq.matches_component_set set_contains_id = true ↔
      ∃ c ∈ allq.components, set_contains_id c = true) := by
  constructor
  · unfold OneQueryState.matches_component_set
    rw [beq_iff_eq, List.length_eq_one]
    constructor
    · rintro ⟨a, ha⟩
      have hmem : a ∈ one.components.filter set_contains_id := by
        rw [ha]; simp
      rw [List.mem_filter] at hmem
      refine ⟨a, hmem.1, hmem.2, ?_⟩
      intro c' hc' hs'
      have hm : c' ∈ one.components.filter set_contains_id :=
        List.mem_filter.mpr ⟨hc', hs'⟩
      rw [ha] at hm
      simpa using hm
    · rintro ⟨c, hc, hs, huniq⟩
      refine ⟨c, nodup_eq_singleton (hnd.filter _)
        (List.mem_filter.mpr ⟨hc, hs⟩) ?_⟩
      intro x hx
      rw [List.mem_filter] at hx
      exact huniq x hx.1 hx.2
  · unfold AllQueryState.matches_component_set
    simp [List.any_eq_true]

/-- Witness for C5: a query state registering components 0 and 1, with a
component set containing only 0, matches the "one" variant with 0 as the
unique hit and matches the "all" variant. -/
theorem c5_matching_predicates_witness :
    (OneQueryState.matches_component_set { components := [0, 1], meta := [] }
        (fun c => c == 0) = true ↔
      ∃ c ∈ [0, 1], (c == 0) = true ∧
        ∀ c' ∈ [0, 1], (c' == 0) = true → c' = c) ∧
    (AllQueryState.matches_component_set { components := [0, 1] }
        (fun c => c == 0) = true ↔
      ∃ c ∈ [0, 1], (c == 0) = true) :=
  c5_matching_predicates { components := [0, 1], meta := [] }
    { components := [0, 1] } (fun c => c == 0) (by decide)

/-- C10: every registry state reachable from the default state through
`register` and `seal` calls keeps the parallel sequences aligned
(`components`/`meta`, `table_components`/`table_meta`,
`sparse_components`/`sparse_meta` of equal lengths), keeps the registered
identifiers pairwise distinct, and keeps `table_components` and
`sparse_components` exactly the restriction of `components` to each storage
discipline, in registration order. -/
theorem c10_registry_invariant (storageOf : ComponentId → StorageType)
    (r : TraitImplRegistry) (h : RegistryReachable storageOf r) :
    RegistryWF storageOf r := by
  induction h with
  | default =>
    exact ⟨rfl, rfl, rfl, List.nodup_nil, rfl, rfl⟩
  | register hr hok ih =>
    rename_i r₀ r' c m
    obtain ⟨ih1, ih2, ih3, ih4, ih5, ih6⟩ := ih
    unfold TraitImplRegistry.register at hok
    by_cases hc : c ∈ r₀.components
    · simp [hc] at hok
      subst hok
      exact ⟨ih1, ih2, ih3, ih4, ih5, ih6⟩
    · simp [hc] at hok
      cases hseal : r₀.sealed with
      | true => simp [hseal] at hok
      | false =>
        simp [hseal] at hok
        have hnodup : (r₀.components ++ [c]).Nodup := by
          rw [List.nodup_append]
          refine ⟨ih4, List.nodup_singleton c, fun a ha hb => ?_⟩
          have hac : a = c := by simpa using hb
          exact hc (hac ▸ ha)
        cases hst : storageOf c with
        | Table =>
          simp [hst] at hok
          subst hok
          refine ⟨by simp [ih1], by simp [ih2], by simp [ih3], hnodup, ?_, ?_⟩
          · rw [List.filter_append, ← ih5]
            simp [storage_is_table, hst]
          · rw [List.filter_append, ← ih6]
            simp [storage_is_sparse, hst]
        | SparseSet =>
          simp [hst] at hok
          subst hok
          refine ⟨by simp [ih1], by simp [ih2], by simp [ih3], hnodup, ?_, ?_⟩
          · rw [List.filter_append, ← ih5]
            simp [storage_is_table, hst]
          · rw [List.filter_append, ← ih6]
            simp [storage_is_sparse, hst]
  | seal_call hr ih =>
    exact ih

/-- Witness for C10: the invariant holds at the concrete registry reached by
registering component 0 from the default state. -/
theorem c10_registry_invariant_witness :
    RegistryWF storage_all_table registry_one :=
  c10_registry_invariant storage_all_table registry_one
    (@RegistryReachable.register storage_all_table TraitImplRegistry.default
      registry_one 0 meta0 RegistryReachable.default rfl)

/-- `findTableHit` is a find-first scan: it yields the column and metadata
of the first zipped pair whose component has a column in the table. -/
theorem findTableHit_eq_find (t : TableModel)
    (l : List (ComponentId × TraitImplMeta)) :
    findTableHit t l =
      (l.find? (fun p => (t.get_column p.1).isSome)).bind
        (fun p => (t.get_column p.1).map (fun col => (col, p.2))) := by
  induction l with
  | nil => rfl
  | cons p rest ih =>
    obtain ⟨c, m⟩ := p
    cases hcol : t.get_column c with
    | some col => simp [findTableHit, List.find?_cons, hcol]
    | none => simp [findTableHit, List.find?_cons, hcol, ih]

/-- A member of the first list of a length-aligned zip appears in the zip
paired with some member of the second list. -/
theorem mem_zip_of_mem_left {α β : Type} {c : α} {cs : List α} {ms : List β}
    (hc : c ∈ cs) (hlen : cs.length = ms.length) :
    ∃ m, (c, m) ∈ cs.zip ms := by
  induction cs generalizing ms with
  | nil => cases hc
  | cons x xs ih =>
    cases ms with
    | nil => cases hlen
    | cons y ys =>
      rcases List.mem_cons.mp hc with h | h
      · exact ⟨y, by simp [h]⟩
      · obtain ⟨m, hm⟩ := ih h (by simpa using hlen)
        exact ⟨m, List.mem_cons_of_mem _ hm⟩

/-- C6: per-batch setup of the single-match read fetch checks the batch's
table for every registered component before consulting any sparse set, so
whenever some registered component has a column in the table the remembered
storage is the table location of the first such hit (a table hit is always
preferred over a sparse one), and the per-entity fetch then computes the
raw pointer as the remembered column base plus `row * size` before applying
the remembered Dyn-Constructor. -/
theorem c6_single_match_setup_and_fetch (state : OneQueryState)
    (sparse_sets : SparseSets) (table : TableModel)
    (entity_table_rows : Nat → Nat) (entities : Nat → EntityId)
    (hlen : state.components.length = state.meta.length)
    (hhit : ∃ c ∈ state.components, (table.get_column c).isSome = true) :
    ∃ p col,
      (state.components.zip state.meta).find?
          (fun q => (table.get_column q.1).isSome) = some p ∧
      table.get_column p.1 = some col ∧
      ReadTraitFetch.set_archetype state sparse_sets table entity_table_rows
          entities =
        Except.ok (ReadStorage.Table col.data_ptr entity_table_rows p.2) ∧
      ∀ i, ReadTraitFetch.archetype_fetch
          (ReadStorage.Table col.data_ptr entity_table_rows p.2) i =
        Except.ok (p.2.dyn_ctor.cast
          (col.data_ptr + entity_table_rows i * p.2.size_bytes)) := by
  obtain ⟨c, hc, hsome⟩ := hhit
  obtain ⟨m, hm⟩ := mem_zip_of_mem_left hc hlen
  have hfind : ((state.components.zip state.meta).find?
      (fun q => (table.get_column q.1).isSome)).isSome := by
    rw [List.find?_isSome]
    exact ⟨(c, m), hm, hsome⟩
  obtain ⟨p, hp⟩ := Option.isSome_iff_exists.mp hfind
  have hpred : (table.get_column p.1).isSome = true := by
    have h := List.find?_some hp
    simpa using h
  obtain ⟨col, hcol⟩ := Option.isSome_iff_exists.mp hpred
  refine ⟨p, col, hp, hcol, ?_, ?_⟩
  · unfold ReadTraitFetch.set_archetype
    rw [findTableHit_eq_find, hp]
    simp [hcol]
  · intro i
    rfl

/-- Witness for C6: with registered components 5 (absent) and 0 (present in
`table0` at base 100), setup remembers the hit on component 0 and fetch
computes its pointer from base plus row times size. -/
theorem c6_single_match_setup_and_fetch_witness :
    ∃ p col,
      (([5, 0].zip [meta1, meta0]).find?
          (fun q => (table0.get_column q.1).isSome) = some p) ∧
      table0.get_column p.1 = some col ∧
      ReadTraitFetch.set_archetype { components := [5, 0], meta := [meta1, meta0] }
          no_sparse_sets table0 (fun i => i) (fun _ => 0) =
        Except.ok (ReadStorage.Table col.data_ptr (fun i => i) p.2) ∧
      ∀ i, ReadTraitFetch.archetype_fetch
          (ReadStorage.Table col.data_ptr (fun i => i) p.2) i =
        Except.ok (p.2.dyn_ctor.cast
          (col.data_ptr + (fun i : Nat => i) i * p.2.size_bytes)) :=
  c6_single_match_setup_and_fetch
    { components := [5, 0], meta := [meta1, meta0] } no_sparse_sets table0
    (fun i => i) (fun _ => 0) rfl ⟨0, by simp, rfl⟩

/-- The table stage of the all-matches iterator yields exactly the zipped
registry entries whose component has a column in the table, in order, each
mapped through the pointer computation and Dyn-Constructor. -/
theorem read_table_traits_list_eq (t : TableModel) (row : Nat)
    (cs : List ComponentId) (ms : List TraitImplMeta)
    (h : cs.length = ms.length) :
    read_table_traits_list t row cs ms =
      ((cs.zip ms).filter (fun p => table_present t p.1)).map
        (table_item t row) := by
  induction cs generalizing ms with
  | nil =>
    cases ms with
    | nil => rfl
    | cons m ms => cases h
  | cons c cs ih =>
    cases ms with
    | nil => cases h
    | cons m ms =>
      have hlen : cs.length = ms.length := by simpa using h
      cases hcol : t.get_column c with
      | some col =>
        simp [read_table_traits_list, hcol, table_present, table_item,
          ih ms hlen]
      | none =>
        simp [read_table_traits_list, hcol, table_present, ih ms hlen]

/-- The sparse stage of the all-matches iterator yields exactly the zipped
registry entries whose component holds the entity in its sparse set, in
order, each mapped through the stored pointer and Dyn-Constructor. -/
theorem read_sparse_traits_list_eq (ss : SparseSets) (e : EntityId)
    (cs : List ComponentId) (ms : List TraitImplMeta)
    (h : cs.length = ms.length) :
    read_sparse_traits_list ss e cs ms =
      ((cs.zip ms).filter (fun p => sparse_present ss e p.1)).map
        (sparse_item ss e) := by
  induction cs generalizing ms with
  | nil =>
    cases ms with
    | nil => rfl
    | cons m ms => cases h
  | cons c cs ih =>
    cases ms with
    | nil => cases h
    | cons m ms =>
      have hlen : cs.length = ms.length := by simpa using h
      cases hsp : (ss c).bind (fun s => s.get e) with
      | some ptr =>
        simp [read_sparse_traits_list, hsp, sparse_present, sparse_item,
          ih ms hlen]
      | none =>
        simp [read_sparse_traits_list, hsp, sparse_present, ih ms hlen]

/-- Filtering a length-aligned zip on the first coordinate keeps as many
pairs as filtering the first list itself. -/
theorem length_filter_zip {α β : Type} (q : α → Bool)
    (cs : List α) (ms : List β) (h : cs.length = ms.length) :
    ((cs.zip ms).filter (fun p => q p.1)).length = (cs.filter q).length := by
  induction cs generalizing ms with
  | nil => simp
  | cons c cs ih =>
    cases ms with
    | nil => cases h
    | cons m ms =>
      have hlen : cs.length = ms.length := by simpa using h
      cases hq : q c <;> simp [List.filter_cons, hq, ih ms hlen]

/-- Counting elements satisfying `pr` splits along any Boolean partition
`q`, provided `pr` agrees with `tp` on the `q`-side and with `sp` on the
complement. -/
theorem filter_length_partition {α : Type} (l : List α) (pr q tp sp : α → Bool)
    (h1 : ∀ a, q a = true → pr a = tp a)
    (h2 : ∀ a, q a = false → pr a = sp a) :
    (l.filter pr).length =
      ((l.filter q).filter tp).length +
      ((l.filter (fun a => !q a)).filter sp).length := by
  induction l with
  | nil => rfl
  | cons a l ih =>
    cases hq : q a with
    | true =>
      have hpr := h1 a hq
      cases htp : tp a with
      | true =>
        rw [List.filter_cons, List.filter_cons]
        simp [hq, hpr, htp, List.filter_cons, ih]
        omega
      | false =>
        rw [List.filter_cons, List.filter_cons]
        simp [hq, hpr, htp, List.filter_cons, ih]
    | false =>
      have hpr := h2 a hq
      cases hsp : sp a with
      | true =>
        rw [List.filter_cons, List.filter_cons]
        simp [hq, hpr, hsp, List.filter_cons, ih]
        omega
      | false =>
        rw [List.filter_cons, List.filter_cons]
        simp [hq, hpr, hsp, List.filter_cons, ih]

/-- Pointwise, the sparse-discipline test is the negation of the
table-discipline test. -/
theorem storage_is_sparse_eq_not_table (storageOf : ComponentId → StorageType) :
    storage_is_sparse storageOf = fun c => !storage_is_table storageOf c := by
  funext c
  cases h : storageOf c <;> simp [storage_is_table, storage_is_sparse, h]

/-- C4: for an entity with N registered implementing components present
(mixed across storage disciplines), the all-matches iterator yields exactly
N trait references — one per implementing component present on the entity —
with all table-discipline implementors first, then all sparse-discipline
implementors, each group in registration order. Stated under the registry
invariant and the host-storage consistency facts that a component lives
only in the storage of its own discipline. -/
theorem c4_all_match_completeness (storageOf : ComponentId → StorageType)
    (rt : ReadTraits) (hwf : RegistryWF storageOf rt.registry)
    (hd1 : ∀ c, storage_is_sparse storageOf c = true →
      table_present rt.table c = false)
    (hd2 : ∀ c, storage_is_table storageOf c = true →
      sparse_present rt.sparse_sets (rt.table.entities rt.table_row) c = false) :
    rt.into_iter =
      ((rt.registry.table_components.zip rt.registry.table_meta).filter
        (fun p => table_present rt.table p.1)).map
        (table_item rt.table rt.table_row)
      ++ ((rt.registry.sparse_components.zip rt.registry.sparse_meta).filter
        (fun p => sparse_present rt.sparse_sets
          (rt.table.entities rt.table_row) p.1)).map
        (sparse_item rt.sparse_sets (rt.table.entities rt.table_row))
    ∧ rt.into_iter.length =
      (rt.registry.components.filter
        (present_on rt.table rt.sparse_sets
          (rt.table.entities rt.table_row))).length := by
  obtain ⟨h1, h2, h3, h4, h5, h6⟩ := hwf
  constructor
  · unfold ReadTraits.into_iter
    rw [read_table_traits_list_eq _ _ _ _ h2,
      read_sparse_traits_list_eq _ _ _ _ h3]
  · unfold ReadTraits.into_iter
    rw [List.length_append,
      read_table_traits_list_eq _ _ _ _ h2,
      read_sparse_traits_list_eq _ _ _ _ h3,
      List.length_map, List.length_map,
      length_filter_zip _ _ _ h2, length_filter_zip _ _ _ h3,
      h5, h6, storage_is_sparse_eq_not_table storageOf]
    refine (filter_length_partition rt.registry.components _
      (storage_is_table storageOf) _ _ ?_ ?_).symm
    · intro a ha
      unfold present_on
      rw [hd2 a ha, Bool.or_false]
    · intro a ha
      unfold present_on
      have hsp : storage_is_sparse storageOf a = true := by
        cases hst : storageOf a with
        | Table => rw [storage_is_table, hst] at ha; cases ha
        | SparseSet => rw [storage_is_sparse, hst]
      rw [hd1 a hsp, Bool.false_or]

/-- Witness for C4: for the concrete collection `rt0` (one registered
table component, present at row 0), the iterator yields exactly the mapped
table hit and its length equals the number of present registered
components. -/
theorem c4_all_match_completeness_witness :
    rt0.into_iter =
      ((rt0.registry.table_components.zip rt0.registry.table_meta).filter
        (fun p => table_present rt0.table p.1)).map
        (table_item rt0.table rt0.table_row)
      ++ ((rt0.registry.sparse_components.zip rt0.registry.sparse_meta).filter
        (fun p => sparse_present rt0.sparse_sets
          (rt0.table.entities rt0.table_row) p.1)).map
        (sparse_item rt0.sparse_sets (rt0.table.entities rt0.table_row))
    ∧ rt0.into_iter.length =
      (rt0.registry.components.filter
        (present_on rt0.table rt0.sparse_sets
          (rt0.table.entities rt0.table_row))).length :=
  c4_all_match_completeness storage_all_table rt0
    ⟨rfl, rfl, rfl, by decide, rfl, rfl⟩
    (fun c h => by simp [storage_is_sparse, storage_all_table] at h)
    (fun c _ => rfl)

/-- The table stage of the all-matches iterator yields at most one item per
registered table component. -/
theorem read_table_traits_list_length_le (t : TableModel) (row : Nat)
    (cs : List ComponentId) (ms : List TraitImplMeta) :
    (read_table_traits_list t row cs ms).length ≤ cs.length := by
  induction cs generalizing ms with
  | nil => simp [read_table_traits_list]
  | cons c cs ih =>
    cases ms with
    | nil => simp [read_table_traits_list]
    | cons m ms =>
      cases hcol : t.get_column c with
      | some col =>
        simp only [read_table_traits_list, hcol, List.length_cons]
        exact Nat.succ_le_succ (ih ms)
      | none =>
        simp only [read_table_traits_list, hcol]
        exact Nat.le_succ_of_le (ih ms)

/-- The sparse stage of the all-matches iterator yields at most one item per
registered sparse component. -/
theorem read_sparse_traits_list_length_le (ss : SparseSets) (e : EntityId)
    (cs : List ComponentId) (ms : List TraitImplMeta) :
    (read_sparse_traits_list ss e cs ms).length ≤ cs.length := by
  induction cs generalizing ms with
  | nil => simp [read_sparse_traits_list]
  | cons c cs ih =>
    cases ms with
    | nil => simp [read_sparse_traits_list]
    | cons m ms =>
      cases hsp : (ss c).bind (fun s => s.get e) with
      | some ptr =>
        simp only [read_sparse_traits_list, hsp, List.length_cons]
        exact Nat.succ_le_succ (ih ms)
      | none =>
        simp only [read_sparse_traits_list, hsp]
        exact Nat.le_succ_of_le (ih ms)

/-- Splitting a list by a Boolean predicate preserves its length. -/
theorem length_filter_bool_split {α : Type} (l : List α) (q : α → Bool) :
    (l.filter q).length + (l.filter (fun a => !q a)).length = l.length := by
  induction l with
  | nil => rfl
  | cons a l ih =>
    cases hq : q a <;> simp [List.filter_cons, hq] <;> omega

/-- C9: re-iterating an entity's all-matches trait-object collection by
shared reference yields the same finite sequence, in the same order, as the
original traversal: the by-reference iterators (for both the read and the
write collection) re-derive the sequence fresh from the registry's
component sequences rather than caching anything, and the sequence's length
is bounded by the registry's total arity. -/
theorem c9_reiteration_idempotent (storageOf : ComponentId → StorageType)
    (rt : ReadTraits) (wt : WriteTraits)
    (hwf : RegistryWF storageOf rt.registry) :
    rt.ref_into_iter = rt.into_iter ∧
    wt.ref_into_iter = ReadTraits.into_iter
      { registry := wt.registry, table := wt.table, table_row := wt.table_row,
        sparse_sets := wt.sparse_sets } ∧
    rt.ref_into_iter.length ≤ rt.registry.components.length := by
  obtain ⟨h1, h2, h3, h4, h5, h6⟩ := hwf
  refine ⟨rfl, rfl, ?_⟩
  unfold ReadTraits.ref_into_iter
  rw [List.length_append]
  calc (read_table_traits_list rt.table rt.table_row
          rt.registry.table_components rt.registry.table_meta).length
      + (read_sparse_traits_list rt.sparse_sets
          (rt.table.entities rt.table_row)
          rt.registry.sparse_components rt.registry.sparse_meta).length
      ≤ rt.registry.table_components.length
        + rt.registry.sparse_components.length :=
        Nat.add_le_add (read_table_traits_list_length_le _ _ _ _)
          (read_sparse_traits_list_length_le _ _ _ _)
    _ = rt.registry.components.length := by
        rw [h5, h6, storage_is_sparse_eq_not_table storageOf]
        exact length_filter_bool_split _ _

/-- Witness for C9: for the concrete collections `rt0` and `wt0`, the
by-reference traversals equal the by-value traversal and respect the arity
bound. -/
theorem c9_reiteration_idempotent_witness :
    rt0.ref_into_iter = rt0.into_iter ∧
    wt0.ref_into_iter = ReadTraits.into_iter
      { registry := wt0.registry, table := wt0.table,
        table_row := wt0.table_row, sparse_sets := wt0.sparse_sets } ∧
    rt0.ref_into_iter.length ≤ rt0.registry.components.length :=
  c9_reiteration_idempotent storage_all_table rt0 wt0
    ⟨rfl, rfl, rfl, by decide, rfl, rfl⟩
